import Mathlib

/-!
Verification development for the HubSpot Email Analytics Collator
(`collateEmails.js`).  The JavaScript source is shallowly embedded:

* events, campaign/content/campaign-object lookups, and page responses are
  explicit data; the HTTP lookups become oracle functions supplied as input;
* JavaScript objects used as recipient maps become association lists
  (string keys, insertion order preserved, exactly the iteration order of
  `for ... in` over a plain object with non-numeric keys);
* JavaScript truthiness tests on strings (`!recipientData.sendEventId`,
  `campaignDetails.contentId ? ... : null`, `x || "N/A"`) are modelled on
  `Option String`, with `none` and `some ""` falsy;
* file writes become pure values describing the file that would be written.
-/

/-- One HubSpot email event, as consumed by `processEmailEvents`:
`{id, type, recipient, emailCampaignId}`. -/
structure EmailEvent where
  id : String
  type : String
  recipient : String
  emailCampaignId : Nat
deriving DecidableEq

/-- The per-recipient record created inside `processEmailEvents`
(`{opens, clicks, replies, unsubscribed, sendEventId}`).  Counts are
modelled as integers (JavaScript numbers used as counters). -/
structure RecipientData where
  opens : Int
  clicks : Int
  replies : Int
  unsubscribed : Bool
  sendEventId : Option String
deriving DecidableEq

/-- The object literal that initialises `recipientEventsMap[recipient]`. -/
def initialRecipientData : RecipientData :=
  { opens := 0, clicks := 0, replies := 0, unsubscribed := false, sendEventId := none }

/-- JavaScript truthiness of a nullable string: `null`/`undefined` and the
empty string are falsy. -/
def jsTruthyOptStr : Option String → Bool
  | none => false
  | some s => !(s == "")

/-- Property access `m[k]` on a JavaScript object modelled as an
association list: first entry with the given key, if any. -/
def lookupKey (k : String) : List (String × RecipientData) → Option RecipientData
  | [] => none
  | (k2, v) :: rest => if k2 = k then some v else lookupKey k rest

/-- In-place mutation of the entry for key `k` (the object field update
through the `recipientData` reference in the source). -/
def updateKey (k : String) (f : RecipientData → RecipientData)
    (m : List (String × RecipientData)) : List (String × RecipientData) :=
  m.map fun p => if p.1 = k then (p.1, f p.2) else p

/-- `event.type` is one of the send-indicating types `SENT`, `DELIVERED`,
`PROCESSED`. -/
def sendTypeB (e : EmailEvent) : Bool :=
  e.type == "SENT" || e.type == "DELIVERED" || e.type == "PROCESSED"

/-- First block of the `forEach` body: record the event id as
`sendEventId` when the event is send-indicating and the current
`sendEventId` is JS-falsy (`!recipientData.sendEventId`). -/
def applySendPhase (event : EmailEvent) (d0 : RecipientData) : RecipientData :=
  if sendTypeB event then
    if jsTruthyOptStr d0.sendEventId then d0
    else { d0 with sendEventId := some event.id }
  else d0

/-- Second block of the `forEach` body: the engagement `switch` on
`event.type`. -/
def applyEngagementSwitch (event : EmailEvent) (d1 : RecipientData) : RecipientData :=
  if event.type == "OPEN" then { d1 with opens := d1.opens + 1 }
  else if event.type == "CLICK" then { d1 with clicks := d1.clicks + 1 }
  else if event.type == "UNSUBSCRIBE" then { d1 with unsubscribed := true }
  else if event.type == "REPLY" then { d1 with replies := d1.replies + 1 }
  else d1

/-- Effect of one event on its recipient's record: the send-id branch
followed by the engagement `switch`. -/
def applyEmailEvent (event : EmailEvent) (d0 : RecipientData) : RecipientData :=
  applyEngagementSwitch event (applySendPhase event d0)

/-- Body of the `forEach` in `processEmailEvents`: create the recipient's
record if absent, then apply the event to it. -/
def recordEvent (m : List (String × RecipientData)) (event : EmailEvent) :
    List (String × RecipientData) :=
  let m1 := if (lookupKey event.recipient m).isSome then m
            else m ++ [(event.recipient, initialRecipientData)]
  updateKey event.recipient (applyEmailEvent event) m1

/-- `processEmailEvents(campaignIdentifier, allEvents)`: filter the events
to the campaign, then fold the `forEach` body over them in source order. -/
def processEmailEvents (campaignIdentifier : Nat) (allEvents : List EmailEvent) :
    List (String × RecipientData) :=
  (allEvents.filter fun e => e.emailCampaignId == campaignIdentifier).foldl recordEvent []

example :
    lookupKey "b" (processEmailEvents 1
      [⟨"e1", "SENT", "b", 1⟩, ⟨"e2", "OPEN", "b", 1⟩, ⟨"e3", "OPEN", "b", 2⟩]) =
    some { opens := 1, clicks := 0, replies := 0, unsubscribed := false,
           sendEventId := some "e1" } := by decide

theorem lookupKey_updateKey (r k : String) (f : RecipientData → RecipientData) :
    ∀ m, lookupKey r (updateKey k f m) =
      if k = r then (lookupKey r m).map f else lookupKey r m := by
  intro m
  induction m with
  | nil => by_cases h : k = r <;> simp [lookupKey, updateKey, h]
  | cons p rest ih =>
    obtain ⟨k1, v⟩ := p
    simp only [updateKey, List.map_cons] at ih ⊢
    by_cases h1 : k1 = k
    · rw [if_pos h1]
      by_cases h2 : k = r
      · have h3 : k1 = r := h1.trans h2
        simp [lookupKey, h3, h2]
      · have h3 : ¬ k1 = r := fun hh => h2 (h1.symm.trans hh)
        simp [lookupKey, h3, h2, ih]
    · rw [if_neg h1]
      by_cases h3 : k1 = r
      · have h2 : ¬ k = r := fun hh => h1 (h3.trans hh.symm)
        simp [lookupKey, h3, h2]
      · simp [lookupKey, h3, ih]

theorem lookupKey_append_of_isSome (r : String) (m l : List (String × RecipientData))
    (w : RecipientData) (h : lookupKey r m = some w) :
    lookupKey r (m ++ l) = some w := by
  induction m with
  | nil => simp [lookupKey] at h
  | cons p rest ih =>
    obtain ⟨k1, v⟩ := p
    by_cases h1 : k1 = r <;> simp_all [lookupKey]

theorem lookupKey_append_of_none (r : String) (m l : List (String × RecipientData))
    (h : lookupKey r m = none) :
    lookupKey r (m ++ l) = lookupKey r l := by
  induction m with
  | nil => simp [lookupKey]
  | cons p rest ih =>
    obtain ⟨k1, v⟩ := p
    by_cases h1 : k1 = r <;> simp_all [lookupKey]

theorem lookupKey_recordEvent (r : String) (m : List (String × RecipientData))
    (e : EmailEvent) :
    lookupKey r (recordEvent m e) =
      if e.recipient = r then
        some (applyEmailEvent e ((lookupKey r m).getD initialRecipientData))
      else lookupKey r m := by
  unfold recordEvent
  cases hm : lookupKey e.recipient m with
  | some w =>
    simp only [hm, Option.isSome_some, if_true]
    rw [lookupKey_updateKey]
    by_cases h : e.recipient = r
    · subst h; simp [hm]
    · simp [h]
  | none =>
    simp only [hm, Option.isSome_none, Bool.false_eq_true, if_false]
    rw [lookupKey_updateKey]
    by_cases h : e.recipient = r
    · subst h
      rw [lookupKey_append_of_none _ _ _ hm]
      simp [lookupKey, hm]
    · cases hr : lookupKey r m with
      | some w =>
        rw [lookupKey_append_of_isSome _ _ _ _ hr]
        simp [h, hr]
      | none =>
        rw [lookupKey_append_of_none _ _ _ hr]
        simp [lookupKey, h, hr]

/-- Per-recipient view of one `forEach` step: how the lookup of a fixed
recipient `r` evolves when one event is processed. -/
def projStep (r : String) (acc : Option RecipientData) (e : EmailEvent) :
    Option RecipientData :=
  if e.recipient = r then some (applyEmailEvent e (acc.getD initialRecipientData)) else acc

/-- Folding the per-event update over a list of events, starting from a
given record (the trajectory of one recipient's record). -/
def foldRecipient (l : List EmailEvent) (d : RecipientData) : RecipientData :=
  l.foldl (fun d e => applyEmailEvent e d) d

theorem foldRecipient_nil (d : RecipientData) : foldRecipient [] d = d := rfl

theorem foldRecipient_cons (e : EmailEvent) (l : List EmailEvent) (d : RecipientData) :
    foldRecipient (e :: l) d = foldRecipient l (applyEmailEvent e d) := rfl

/-- The record a recipient ends with, given the (campaign- and
recipient-) filtered slice of events: absent when the slice is empty. -/
def collapseRecipient : List EmailEvent → Option RecipientData
  | [] => none
  | l => some (foldRecipient l initialRecipientData)

theorem collapseRecipient_cons (e : EmailEvent) (l : List EmailEvent) :
    collapseRecipient (e :: l) = some (foldRecipient (e :: l) initialRecipientData) := rfl

theorem foldl_recordEvent_lookup (r : String) :
    ∀ (l : List EmailEvent) (m : List (String × RecipientData)),
      lookupKey r (l.foldl recordEvent m) = l.foldl (projStep r) (lookupKey r m) := by
  intro l
  induction l with
  | nil => intro m; rfl
  | cons e l ih =>
    intro m
    simp only [List.foldl_cons]
    rw [ih, lookupKey_recordEvent]
    rfl

theorem foldl_projStep_some (r : String) :
    ∀ (l : List EmailEvent) (v : RecipientData),
      l.foldl (projStep r) (some v) =
        some (foldRecipient (l.filter fun e => e.recipient == r) v) := by
  intro l
  induction l with
  | nil => intro v; rfl
  | cons e l ih =>
    intro v
    by_cases h : e.recipient = r
    · have hb : (e.recipient == r) = true := by simp [h]
      simp only [List.foldl_cons, projStep, if_pos h, Option.getD_some, List.filter_cons, hb,
        if_true, foldRecipient_cons]
      exact ih (applyEmailEvent e v)
    · have hb : (e.recipient == r) = false := by simp [h]
      simp only [List.foldl_cons, projStep, if_neg h, List.filter_cons, hb, Bool.false_eq_true,
        if_false]
      exact ih v

theorem foldl_projStep_none (r : String) :
    ∀ l : List EmailEvent,
      l.foldl (projStep r) none =
        collapseRecipient (l.filter fun e => e.recipient == r) := by
  intro l
  induction l with
  | nil => rfl
  | cons e l ih =>
    by_cases h : e.recipient = r
    · have hb : (e.recipient == r) = true := by simp [h]
      simp only [List.foldl_cons, projStep, if_pos h, Option.getD_none, List.filter_cons, hb,
        if_true, collapseRecipient_cons, foldRecipient_cons]
      exact foldl_projStep_some r l (applyEmailEvent e initialRecipientData)
    · have hb : (e.recipient == r) = false := by simp [h]
      simp only [List.foldl_cons, projStep, if_neg h, List.filter_cons, hb, Bool.false_eq_true,
        if_false]
      exact ih

/-- The slice of `allEvents` that concerns campaign `c` and recipient `r`,
in source order. -/
def eventsFor (c : Nat) (r : String) (allEvents : List EmailEvent) : List EmailEvent :=
  allEvents.filter fun e => e.emailCampaignId == c && e.recipient == r

/-- Master characterisation: what `recipientEventsMap[r]` holds after
`processEmailEvents(c, allEvents)`. -/
theorem lookupKey_processEmailEvents (c : Nat) (r : String) (allEvents : List EmailEvent) :
    lookupKey r (processEmailEvents c allEvents) =
      collapseRecipient (eventsFor c r allEvents) := by
  unfold processEmailEvents
  rw [foldl_recordEvent_lookup]
  show List.foldl (projStep r) none _ = _
  rw [foldl_projStep_none]
  unfold eventsFor
  rw [List.filter_filter]
  congr 1
  apply List.filter_congr
  intro a _
  exact Bool.and_comm _ _

theorem applySendPhase_opens (e : EmailEvent) (d : RecipientData) :
    (applySendPhase e d).opens = d.opens := by
  unfold applySendPhase; split_ifs <;> rfl

theorem applySendPhase_clicks (e : EmailEvent) (d : RecipientData) :
    (applySendPhase e d).clicks = d.clicks := by
  unfold applySendPhase; split_ifs <;> rfl

theorem applySendPhase_replies (e : EmailEvent) (d : RecipientData) :
    (applySendPhase e d).replies = d.replies := by
  unfold applySendPhase; split_ifs <;> rfl

theorem applySendPhase_unsubscribed (e : EmailEvent) (d : RecipientData) :
    (applySendPhase e d).unsubscribed = d.unsubscribed := by
  unfold applySendPhase; split_ifs <;> rfl

theorem applySendPhase_sendEventId (e : EmailEvent) (d : RecipientData) :
    (applySendPhase e d).sendEventId =
      if sendTypeB e && !jsTruthyOptStr d.sendEventId then some e.id
      else d.sendEventId := by
  unfold applySendPhase
  cases hs : sendTypeB e <;> cases ht : jsTruthyOptStr d.sendEventId <;> simp [hs, ht]

theorem applyEngagementSwitch_sendEventId (e : EmailEvent) (d : RecipientData) :
    (applyEngagementSwitch e d).sendEventId = d.sendEventId := by
  unfold applyEngagementSwitch; split_ifs <;> rfl

theorem applyEngagementSwitch_opens (e : EmailEvent) (d : RecipientData) :
    (applyEngagementSwitch e d).opens = d.opens + (if e.type == "OPEN" then 1 else 0) := by
  unfold applyEngagementSwitch; split_ifs <;> simp_all

theorem applyEngagementSwitch_clicks (e : EmailEvent) (d : RecipientData) :
    (applyEngagementSwitch e d).clicks = d.clicks + (if e.type == "CLICK" then 1 else 0) := by
  unfold applyEngagementSwitch; split_ifs <;> simp_all

theorem applyEngagementSwitch_replies (e : EmailEvent) (d : RecipientData) :
    (applyEngagementSwitch e d).replies = d.replies + (if e.type == "REPLY" then 1 else 0) := by
  unfold applyEngagementSwitch; split_ifs <;> simp_all

theorem applyEngagementSwitch_unsubscribed (e : EmailEvent) (d : RecipientData) :
    (applyEngagementSwitch e d).unsubscribed =
      (d.unsubscribed || (e.type == "UNSUBSCRIBE")) := by
  unfold applyEngagementSwitch; split_ifs <;> simp_all

theorem applyEmailEvent_opens (e : EmailEvent) (d : RecipientData) :
    (applyEmailEvent e d).opens = d.opens + (if e.type == "OPEN" then 1 else 0) := by
  unfold applyEmailEvent
  rw [applyEngagementSwitch_opens, applySendPhase_opens]

theorem applyEmailEvent_clicks (e : EmailEvent) (d : RecipientData) :
    (applyEmailEvent e d).clicks = d.clicks + (if e.type == "CLICK" then 1 else 0) := by
  unfold applyEmailEvent
  rw [applyEngagementSwitch_clicks, applySendPhase_clicks]

theorem applyEmailEvent_replies (e : EmailEvent) (d : RecipientData) :
    (applyEmailEvent e d).replies = d.replies + (if e.type == "REPLY" then 1 else 0) := by
  unfold applyEmailEvent
  rw [applyEngagementSwitch_replies, applySendPhase_replies]

theorem applyEmailEvent_unsubscribed (e : EmailEvent) (d : RecipientData) :
    (applyEmailEvent e d).unsubscribed =
      (d.unsubscribed || (e.type == "UNSUBSCRIBE")) := by
  unfold applyEmailEvent
  rw [applyEngagementSwitch_unsubscribed, applySendPhase_unsubscribed]

theorem applyEmailEvent_sendEventId (e : EmailEvent) (d : RecipientData) :
    (applyEmailEvent e d).sendEventId =
      if sendTypeB e && !jsTruthyOptStr d.sendEventId then some e.id
      else d.sendEventId := by
  unfold applyEmailEvent
  rw [applyEngagementSwitch_sendEventId, applySendPhase_sendEventId]

theorem foldRecipient_opens (l : List EmailEvent) :
    ∀ d, (foldRecipient l d).opens =
      d.opens + ((l.filter fun e => e.type == "OPEN").length : Int) := by
  induction l with
  | nil => intro d; simp [foldRecipient_nil]
  | cons e l ih =>
    intro d
    rw [foldRecipient_cons, ih, applyEmailEvent_opens]
    by_cases h : e.type = "OPEN" <;> simp [List.filter_cons, h] <;> omega

theorem foldRecipient_clicks (l : List EmailEvent) :
    ∀ d, (foldRecipient l d).clicks =
      d.clicks + ((l.filter fun e => e.type == "CLICK").length : Int) := by
  induction l with
  | nil => intro d; simp [foldRecipient_nil]
  | cons e l ih =>
    intro d
    rw [foldRecipient_cons, ih, applyEmailEvent_clicks]
    by_cases h : e.type = "CLICK" <;> simp [List.filter_cons, h] <;> omega

theorem foldRecipient_replies (l : List EmailEvent) :
    ∀ d, (foldRecipient l d).replies =
      d.replies + ((l.filter fun e => e.type == "REPLY").length : Int) := by
  induction l with
  | nil => intro d; simp [foldRecipient_nil]
  | cons e l ih =>
    intro d
    rw [foldRecipient_cons, ih, applyEmailEvent_replies]
    by_cases h : e.type = "REPLY" <;> simp [List.filter_cons, h] <;> omega

theorem foldRecipient_unsubscribed (l : List EmailEvent) :
    ∀ d, (foldRecipient l d).unsubscribed =
      (d.unsubscribed || l.any fun e => e.type == "UNSUBSCRIBE") := by
  induction l with
  | nil => intro d; simp [foldRecipient_nil]
  | cons e l ih =>
    intro d
    rw [foldRecipient_cons, ih, applyEmailEvent_unsubscribed]
    simp [Bool.or_assoc]

theorem foldRecipient_sendEventId_truthy (l : List EmailEvent) :
    ∀ d, jsTruthyOptStr d.sendEventId = true →
      (foldRecipient l d).sendEventId = d.sendEventId := by
  induction l with
  | nil => intro d _; simp [foldRecipient_nil]
  | cons e l ih =>
    intro d ht
    have hs : (applyEmailEvent e d).sendEventId = d.sendEventId := by
      rw [applyEmailEvent_sendEventId, ht]; simp
    rw [foldRecipient_cons, ih _ (by rw [hs]; exact ht), hs]

theorem foldRecipient_sendEventId_none :
    ∀ l : List EmailEvent, (∀ e ∈ l, sendTypeB e = true → e.id ≠ "") →
      ∀ d, d.sendEventId = none →
        (foldRecipient l d).sendEventId =
          ((l.filter sendTypeB).head?).map (fun e => e.id) := by
  intro l
  induction l with
  | nil => intro _ d hd; simp [foldRecipient_nil, hd]
  | cons e l ih =>
    intro hid d hd
    rw [foldRecipient_cons]
    cases hs : sendTypeB e with
    | false =>
      have hse : (applyEmailEvent e d).sendEventId = none := by
        rw [applyEmailEvent_sendEventId, hs, hd]; simp
      rw [ih (fun e' he' hs' => hid e' (List.mem_cons_of_mem _ he') hs') _ hse]
      simp [List.filter_cons, hs]
    | true =>
      have hne : e.id ≠ "" := hid e (List.mem_cons_self _ _) hs
      have hse : (applyEmailEvent e d).sendEventId = some e.id := by
        rw [applyEmailEvent_sendEventId, hs, hd]; simp [jsTruthyOptStr]
      have ht : jsTruthyOptStr (applyEmailEvent e d).sendEventId = true := by
        rw [hse]; simp [jsTruthyOptStr, hne]
      rw [foldRecipient_sendEventId_truthy l _ ht, hse]
      simp [List.filter_cons, hs]

theorem eventsFor_filter (c : Nat) (r : String) (allEvents : List EmailEvent)
    (q : EmailEvent → Bool) :
    (eventsFor c r allEvents).filter q =
      allEvents.filter fun e => e.emailCampaignId == c && e.recipient == r && q e := by
  unfold eventsFor
  rw [List.filter_filter]
  apply List.filter_congr
  intro a _
  cases h1 : (a.emailCampaignId == c) <;> cases h2 : (a.recipient == r) <;>
    cases h3 : q a <;> simp [h1, h2, h3]

/-- The number of events of campaign `c`, recipient `r` and type `t`
(an integer, to match the counter fields). -/
def countEventsOfType (allEvents : List EmailEvent) (c : Nat) (r : String) (t : String) : Int :=
  ((allEvents.filter fun e =>
      e.emailCampaignId == c && e.recipient == r && e.type == t).length : Int)

theorem collapseRecipient_isSome (l : List EmailEvent) :
    (collapseRecipient l).isSome = true ↔ l ≠ [] := by
  cases l <;> simp [collapseRecipient]

theorem mem_eventsFor (c : Nat) (r : String) (allEvents : List EmailEvent) (e : EmailEvent) :
    e ∈ eventsFor c r allEvents ↔ e ∈ allEvents ∧ e.emailCampaignId = c ∧ e.recipient = r := by
  simp [eventsFor, List.mem_filter, and_assoc]

theorem eventsFor_ne_nil_iff (c : Nat) (r : String) (allEvents : List EmailEvent) :
    eventsFor c r allEvents ≠ [] ↔
      ∃ e ∈ allEvents, e.emailCampaignId = c ∧ e.recipient = r := by
  constructor
  · intro h
    cases hl : eventsFor c r allEvents with
    | nil => exact absurd hl h
    | cons e t =>
      have hm : e ∈ eventsFor c r allEvents := by rw [hl]; exact List.mem_cons_self _ _
      rcases (mem_eventsFor c r allEvents e).mp hm with ⟨he, hc, hr⟩
      exact ⟨e, he, hc, hr⟩
  · rintro ⟨e, he, hc, hr⟩ hnil
    have hm : e ∈ eventsFor c r allEvents := (mem_eventsFor c r allEvents e).mpr ⟨he, hc, hr⟩
    rw [hnil] at hm
    exact absurd hm (List.not_mem_nil e)

theorem lookupKey_some_eq (allEvents : List EmailEvent) (c : Nat) (r : String)
    (d : RecipientData) (h : lookupKey r (processEmailEvents c allEvents) = some d) :
    d = foldRecipient (eventsFor c r allEvents) initialRecipientData := by
  rw [lookupKey_processEmailEvents] at h
  cases hl : eventsFor c r allEvents with
  | nil => simp [hl, collapseRecipient] at h
  | cons e t =>
    rw [hl, collapseRecipient_cons] at h
    exact (Option.some.inj h).symm

theorem processedRecord_char (allEvents : List EmailEvent) (c : Nat) (r : String)
    (d : RecipientData) (h : lookupKey r (processEmailEvents c allEvents) = some d) :
    d.opens = countEventsOfType allEvents c r "OPEN" ∧
    d.clicks = countEventsOfType allEvents c r "CLICK" ∧
    d.replies = countEventsOfType allEvents c r "REPLY" ∧
    d.unsubscribed = ((eventsFor c r allEvents).any fun e => e.type == "UNSUBSCRIBE") := by
  have hd := lookupKey_some_eq allEvents c r d h
  refine ⟨?_, ?_, ?_, ?_⟩
  · rw [hd, foldRecipient_opens, eventsFor_filter]
    simp [initialRecipientData, countEventsOfType]
  · rw [hd, foldRecipient_clicks, eventsFor_filter]
    simp [initialRecipientData, countEventsOfType]
  · rw [hd, foldRecipient_replies, eventsFor_filter]
    simp [initialRecipientData, countEventsOfType]
  · rw [hd, foldRecipient_unsubscribed]
    simp [initialRecipientData]

/-- C1: in `processEmailEvents(c, events)`, a recipient has an entry iff
it has at least one event of campaign `c`; the entry's `opens`, `clicks`
and `replies` equal the number of matching `OPEN`, `CLICK` and `REPLY`
events (any other type leaves them untouched, being counted by none of
the three filters); `unsubscribed` is true iff a matching `UNSUBSCRIBE`
event exists; and the counts and flag do not depend on the order of the
event list. -/
theorem processEmailEvents_engagement_counts (allEvents : List EmailEvent)
    (c : Nat) (r : String) :
    ((lookupKey r (processEmailEvents c allEvents)).isSome = true ↔
      ∃ e ∈ allEvents, e.emailCampaignId = c ∧ e.recipient = r) ∧
    (∀ d, lookupKey r (processEmailEvents c allEvents) = some d →
      d.opens = countEventsOfType allEvents c r "OPEN" ∧
      d.clicks = countEventsOfType allEvents c r "CLICK" ∧
      d.replies = countEventsOfType allEvents c r "REPLY" ∧
      (d.unsubscribed = true ↔
        ∃ e ∈ allEvents, e.emailCampaignId = c ∧ e.recipient = r ∧
          e.type = "UNSUBSCRIBE")) ∧
    (∀ allEvents2, allEvents.Perm allEvents2 → ∀ d d2,
      lookupKey r (processEmailEvents c allEvents) = some d →
      lookupKey r (processEmailEvents c allEvents2) = some d2 →
      d.opens = d2.opens ∧ d.clicks = d2.clicks ∧ d.replies = d2.replies ∧
      d.unsubscribed = d2.unsubscribed) := by
  refine ⟨?_, ?_, ?_⟩
  · rw [lookupKey_processEmailEvents, collapseRecipient_isSome, eventsFor_ne_nil_iff]
  · intro d h
    obtain ⟨h1, h2, h3, h4⟩ := processedRecord_char allEvents c r d h
    refine ⟨h1, h2, h3, ?_⟩
    rw [h4, List.any_eq_true]
    constructor
    · rintro ⟨e, he, ht⟩
      rcases (mem_eventsFor c r allEvents e).mp he with ⟨hm, hc, hr⟩
      exact ⟨e, hm, hc, hr, by simpa using ht⟩
    · rintro ⟨e, hm, hc, hr, ht⟩
      exact ⟨e, (mem_eventsFor c r allEvents e).mpr ⟨hm, hc, hr⟩, by simp [ht]⟩
  · intro l2 hp d d2 h h2
    obtain ⟨a1, b1, c1, u1⟩ := processedRecord_char allEvents c r d h
    obtain ⟨a2, b2, c2, u2⟩ := processedRecord_char l2 c r d2 h2
    have hcount : ∀ t, countEventsOfType allEvents c r t = countEventsOfType l2 c r t := by
      intro t
      unfold countEventsOfType
      exact congrArg _ (List.Perm.length_eq (hp.filter _))
    refine ⟨by rw [a1, a2, hcount], by rw [b1, b2, hcount], by rw [c1, c2, hcount], ?_⟩
    rw [u1, u2]
    have hp2 : (eventsFor c r allEvents).Perm (eventsFor c r l2) := hp.filter _
    rw [Bool.eq_iff_iff]
    simp only [List.any_eq_true]
    constructor
    · rintro ⟨e, he, ht⟩; exact ⟨e, hp2.mem_iff.mp he, ht⟩
    · rintro ⟨e, he, ht⟩; exact ⟨e, hp2.mem_iff.mpr he, ht⟩

/-- Concrete event list exercising C1: two opens and one foreign-campaign
click plus an uncounted type. -/
def evsC1 : List EmailEvent :=
  [⟨"e1", "SENT", "b", 1⟩, ⟨"e2", "OPEN", "b", 1⟩, ⟨"e3", "OPEN", "b", 1⟩,
   ⟨"e4", "CLICK", "b", 2⟩, ⟨"e5", "BOUNCE", "b", 1⟩]

theorem processEmailEvents_engagement_counts_witness :
    lookupKey "b" (processEmailEvents 1 evsC1) =
      some ⟨2, 0, 0, false, some "e1"⟩ ∧
    ((⟨2, 0, 0, false, some "e1"⟩ : RecipientData).opens =
        countEventsOfType evsC1 1 "b" "OPEN" ∧
     (⟨2, 0, 0, false, some "e1"⟩ : RecipientData).clicks =
        countEventsOfType evsC1 1 "b" "CLICK" ∧
     (⟨2, 0, 0, false, some "e1"⟩ : RecipientData).replies =
        countEventsOfType evsC1 1 "b" "REPLY" ∧
     ((⟨2, 0, 0, false, some "e1"⟩ : RecipientData).unsubscribed = true ↔
       ∃ e ∈ evsC1, e.emailCampaignId = 1 ∧ e.recipient = "b" ∧
         e.type = "UNSUBSCRIBE")) :=
  ⟨by decide, (processEmailEvents_engagement_counts evsC1 1 "b").2.1 _ (by decide)⟩

/-- C2 (amended): provided every send-indicating event carries a
non-empty (JS-truthy) id, the `sendEventId` recorded for a recipient is
the id of the first event in source order whose type is `SENT`,
`DELIVERED` or `PROCESSED` and whose recipient and campaign match, later
send-indicating events never overwrite it, and it is `none` when no such
event exists.  (Without the non-empty-id proviso the guard
`!recipientData.sendEventId` lets a recorded empty id be overwritten —
see the counterexample.) -/
theorem processEmailEvents_first_send_event (allEvents : List EmailEvent)
    (c : Nat) (r : String)
    (hid : ∀ e ∈ allEvents, sendTypeB e = true → e.id ≠ "") :
    ∀ d, lookupKey r (processEmailEvents c allEvents) = some d →
      d.sendEventId =
        ((allEvents.filter fun e =>
            e.emailCampaignId == c && e.recipient == r && sendTypeB e).head?).map
          (fun e => e.id) := by
  intro d h
  have hd := lookupKey_some_eq allEvents c r d h
  have hids : ∀ e ∈ eventsFor c r allEvents, sendTypeB e = true → e.id ≠ "" :=
    fun e he hs => hid e ((mem_eventsFor c r allEvents e).mp he).1 hs
  have hfold := foldRecipient_sendEventId_none (eventsFor c r allEvents) hids
    initialRecipientData rfl
  rw [hd, hfold, eventsFor_filter]

/-- Concrete event list exercising C2: an engagement event first, then
two send-indicating events with non-empty ids. -/
def evsC2W : List EmailEvent :=
  [⟨"x0", "OPEN", "b", 1⟩, ⟨"e1", "SENT", "b", 1⟩, ⟨"e9", "DELIVERED", "b", 1⟩]

theorem processEmailEvents_first_send_event_witness :
    (∀ e ∈ evsC2W, sendTypeB e = true → e.id ≠ "") ∧
    (⟨1, 0, 0, false, some "e1"⟩ : RecipientData).sendEventId =
      ((evsC2W.filter fun e =>
          e.emailCampaignId == 1 && e.recipient == "b" && sendTypeB e).head?).map
        (fun e => e.id) :=
  ⟨by decide,
   processEmailEvents_first_send_event evsC2W 1 "b" (by decide) _ (by decide)⟩

/-- Two matching send events, the first with the empty (JS-falsy) id. -/
def evsC2X : List EmailEvent :=
  [⟨"", "SENT", "b", 1⟩, ⟨"e2", "SENT", "b", 1⟩]

/-- C2 counterexample: on `evsC2X` the first matching send-indicating
event has id `""`, yet the recorded send-event id is `"e2"` — the second
send event did overwrite the already-recorded id, refuting the claim as
stated. -/
theorem processEmailEvents_first_send_event_cex :
    lookupKey "b" (processEmailEvents 1 evsC2X) =
      some ⟨0, 0, 0, false, some "e2"⟩ ∧
    ((evsC2X.filter fun e =>
        e.emailCampaignId == 1 && e.recipient == "b" && sendTypeB e).head?).map
      (fun e => e.id) = some "" ∧
    (some "e2" : Option String) ≠ some "" :=
  ⟨by decide, by decide, by decide⟩

/-- The first list is a leading segment of the second (character-level
prefix test used by substring search). -/
def charsMatchAt : List Char → List Char → Bool
  | [], _ => true
  | _ :: _, [] => false
  | n :: ns, h :: hs => n == h && charsMatchAt ns hs

/-- Substring occurrence over character lists. -/
def charsContain (needle : List Char) : List Char → Bool
  | [] => charsMatchAt needle []
  | c :: rest => charsMatchAt needle (c :: rest) || charsContain needle rest

/-- JavaScript `s.includes(needle)`. -/
def jsIncludes (s needle : String) : Bool := charsContain needle.toList s.toList

/-- JavaScript `s.toLowerCase()` (ASCII case mapping suffices here: the
needle is the ASCII literal "lead"). -/
def jsToLowerCase (s : String) : String := (s.toList.map Char.toLower).asString

/-- Result object of the simulated Salesforce lookup. -/
structure SalesforceRecord where
  type : String
  recordIdentifier : String
deriving DecidableEq

/-- `determineIfHubSpotContactIsSalesforceContactOrLead(emailAddress)`:
simulated lookup (`Option` because the caller null-checks the result;
both source branches return an object). -/
def determineIfHubSpotContactIsSalesforceContactOrLead (emailAddress : String) :
    Option SalesforceRecord :=
  if jsIncludes (jsToLowerCase emailAddress) "lead" then
    some { type := "Lead", recordIdentifier := "00Q_simulatedLeadId" }
  else
    some { type := "Contact", recordIdentifier := "003_simulatedContactId" }

/-- The module-level `configuration` object (token and integration user
id come from `variables.json`, hence nullable). -/
structure Configuration where
  hubSpotAccessToken : Option String
  baseUniformResourceLocator : String
  outputDirectory : String
  batchLimit : Nat
  salesforceSendsDirectory : String
  salesforceIntegrationUserIdentifier : Option String

/-- JavaScript `x || d` on a number (0 is falsy). -/
def jsOrInt (x d : Int) : Int := if x = 0 then d else x

/-- JavaScript `x || d` where `x` is a nullable string. -/
def jsOrOptStr (o : Option String) (d : String) : String :=
  match o with
  | none => d
  | some s => if s = "" then d else s

/-- JavaScript `x || d` on a string. -/
def jsOrStr (s d : String) : String := if s = "" then d else s

/-- Characters kept by the file-name sanitiser `[^a-zA-Z0-9_.-]`. -/
def isSafeFileChar (ch : Char) : Bool :=
  (decide ('a' ≤ ch) && decide (ch ≤ 'z')) ||
  (decide ('A' ≤ ch) && decide (ch ≤ 'Z')) ||
  (decide ('0' ≤ ch) && decide (ch ≤ '9')) ||
  ch == '_' || ch == '.' || ch == '-'

/-- `recipient.replace(/[^a-zA-Z0-9_.-]/g, "_")`. -/
def sanitizeRecipient (recipient : String) : String :=
  (recipient.toList.map fun ch => if isSafeFileChar ch then ch else '_').asString

/-- The `recordData` object written to a Salesforce-send payload file. -/
structure RecordData where
  Contact__c : Option String
  Lead__c : Option String
  CreatedById : Option String
  Email_Address__c : String
  HubSpot_Email_Campaign__c : Nat
  HubSpot_Email_Send_ID__c : String
  Total_Clicks__c : Int
  Total_Opened__c : Int
  Total_Replies__c : Int
  Unsubscribed__c : Bool
deriving DecidableEq

/-- The parameter object of `writeSalesforceSendPayloadToFile`. -/
structure SendPayloadParameters where
  salesforceContactOrLeadType : String
  salesforceRecordIdentifier : String
  recipient : String
  campaignIdentifier : Nat
  hubSpotSendIdentifier : String
  recipientData : RecipientData

/-- A file write, as a pure value: its name and its JSON content. -/
structure WrittenFile where
  fileName : String
  data : RecordData
deriving DecidableEq

/-- `writeSalesforceSendPayloadToFile(parameters)`: builds `recordData`
and the file name `send_<campaignId>_<sanitizedRecipient>.json`. -/
def writeSalesforceSendPayloadToFile (cfg : Configuration)
    (p : SendPayloadParameters) : WrittenFile :=
  { fileName := cfg.salesforceSendsDirectory ++ "/send_" ++
      toString p.campaignIdentifier ++ "_" ++ sanitizeRecipient p.recipient ++ ".json",
    data :=
      { Contact__c := if p.salesforceContactOrLeadType = "Contact"
          then some p.salesforceRecordIdentifier else none,
        Lead__c := if p.salesforceContactOrLeadType = "Lead"
          then some p.salesforceRecordIdentifier else none,
        CreatedById := cfg.salesforceIntegrationUserIdentifier,
        Email_Address__c := p.recipient,
        HubSpot_Email_Campaign__c := p.campaignIdentifier,
        HubSpot_Email_Send_ID__c := jsOrStr p.hubSpotSendIdentifier "N/A",
        Total_Clicks__c := jsOrInt p.recipientData.clicks 0,
        Total_Opened__c := jsOrInt p.recipientData.opens 0,
        Total_Replies__c := jsOrInt p.recipientData.replies 0,
        Unsubscribed__c := p.recipientData.unsubscribed } }

/-- Campaign metadata from `getEmailCampaignDetails`; only the
`contentId` field is inspected by the pipeline. -/
structure CampaignDetails where
  contentId : Option String
deriving DecidableEq

/-- Content metadata from `getEmailContent`; only the `campaign` field
(the campaign-object reference) is inspected. -/
structure ContentDetails where
  campaign : Option String
deriving DecidableEq

/-- Campaign-object metadata from `getHubSpotCampaign`; `updatedAt` is
held as epoch milliseconds (what `new Date(...)` comparison uses). -/
structure HubSpotCampaignDetails where
  updatedAt : Int
deriving DecidableEq

/-- The per-campaign `analysis` object pushed into `results`. -/
structure CampaignAnalysis where
  id : Nat
  campaign : CampaignDetails
  content : Option ContentDetails
  recipientEventsMap : List (String × RecipientData)
deriving DecidableEq

/-- Body of the recipient loop in `writeAllEmailSendsToFiles`: resolve
the simulated Salesforce identity (skipping the recipient on a nullish
result, with `continue`) and write the payload file, passing
`recipientData.sendEventId || "N/A"` as the send identifier. -/
def sendRecordFor (cfg : Configuration) (recipient : String) (cid : Nat)
    (recipientData : RecipientData) : Option WrittenFile :=
  match determineIfHubSpotContactIsSalesforceContactOrLead recipient with
  | none => none
  | some salesforceRecord =>
      some (writeSalesforceSendPayloadToFile cfg
        { salesforceContactOrLeadType := salesforceRecord.type,
          salesforceRecordIdentifier := salesforceRecord.recordIdentifier,
          recipient := recipient,
          campaignIdentifier := cid,
          hubSpotSendIdentifier := jsOrOptStr recipientData.sendEventId "N/A",
          recipientData := recipientData })

/-- `writeAllEmailSendsToFiles(analysisResults)`: for every campaign
analysis, iterate `for (const recipient in recipientEventsMap)` and run
the loop body on each entry. -/
def writeAllEmailSendsToFiles (cfg : Configuration)
    (analysisResults : List CampaignAnalysis) : List WrittenFile :=
  (analysisResults.map fun campaignAnalysis =>
    campaignAnalysis.recipientEventsMap.filterMap fun entry =>
      sendRecordFor cfg entry.1 campaignAnalysis.id entry.2).flatten

/-- The three per-campaign HTTP lookups, as oracles: `none` models both a
failed request and a not-found response (the source maps both to `null`). -/
structure Oracles where
  getEmailCampaignDetails : Nat → Option CampaignDetails
  getEmailContent : String → Option ContentDetails
  getHubSpotCampaign : String → Option HubSpotCampaignDetails

/-- `new Date("2024-01-01T01:01:01.001Z")` in epoch milliseconds. -/
def watermarkMillis : Int := 1704070861001

/-- `campaignDetails.contentId ? await getEmailContent(...) : null`
(ternary on JS truthiness of `contentId`). -/
def fetchContentDetails (o : Oracles) (campaignDetails : CampaignDetails) :
    Option ContentDetails :=
  match campaignDetails.contentId with
  | some cId => if cId = "" then none else o.getEmailContent cId
  | none => none

/-- One iteration of the campaign loop in `compileEmailAnalytics`:
resolve campaign details (skip on `null`), fetch content, evaluate the
`includeCampaign` staged filter, and build the analysis if included. -/
def analyzeCampaign (o : Oracles) (allEvents : List EmailEvent) (cid : Nat) :
    Option CampaignAnalysis :=
  match o.getEmailCampaignDetails cid with
  | none => none
  | some campaignDetails =>
    let contentDetails := fetchContentDetails o campaignDetails
    let includeCampaign : Bool :=
      match contentDetails with
      | some ct =>
        match ct.campaign with
        | some hid =>
          if hid = "" then false
          else
            match o.getHubSpotCampaign hid with
            | some hc => decide (watermarkMillis ≤ hc.updatedAt)
            | none => false
        | none => false
      | none => false
    if includeCampaign then
      some { id := cid, campaign := campaignDetails, content := contentDetails,
             recipientEventsMap := processEmailEvents cid allEvents }
    else none

/-- `[...new Set(list)]`: first occurrences, in order. -/
def dedupFirstAux (seen : List Nat) : List Nat → List Nat
  | [] => []
  | x :: xs => if x ∈ seen then dedupFirstAux seen xs else x :: dedupFirstAux (x :: seen) xs

/-- The deduplicated campaign-identifier list of a run. -/
def dedupFirst (l : List Nat) : List Nat := dedupFirstAux [] l

/-- Name of the per-campaign analysis file. -/
def emailFileName (cfg : Configuration) (cid : Nat) : String :=
  cfg.outputDirectory ++ "/email_" ++ toString cid ++ ".json"

/-- Everything a run writes: the per-campaign files, the summary array,
and the Salesforce-send payload files. -/
structure RunResult where
  perCampaignFiles : List (String × CampaignAnalysis)
  summary : List CampaignAnalysis
  sendFiles : List WrittenFile

/-- `compileEmailAnalytics()` from the fetched event collection onward:
distinct campaign ids in first-seen order, the per-campaign loop, the
summary array, and `writeAllEmailSendsToFiles(results)`. -/
def compileEmailAnalytics (cfg : Configuration) (o : Oracles)
    (allEvents : List EmailEvent) : RunResult :=
  let campaignIdentifiers := dedupFirst (allEvents.map fun e => e.emailCampaignId)
  let results := campaignIdentifiers.filterMap (analyzeCampaign o allEvents)
  { perCampaignFiles := results.map fun a => (emailFileName cfg a.id, a),
    summary := results,
    sendFiles := writeAllEmailSendsToFiles cfg results }

/-- C7: for every recipient address the projected send record populates
exactly one of `Contact__c`/`Lead__c`: `Lead__c = "00Q_simulatedLeadId"`
precisely when the lowercased address contains the substring `"lead"`,
otherwise `Contact__c = "003_simulatedContactId"`.  The classification is
a function of the address alone (the other arguments do not enter the
two identity fields), and is deterministic because the embedding is a
pure function. -/
theorem salesforce_contact_or_lead_classification (cfg : Configuration)
    (emailAddress : String) (cid : Nat) (d : RecipientData) :
    ∃ f, sendRecordFor cfg emailAddress cid d = some f ∧
      f.data.Lead__c = (if jsIncludes (jsToLowerCase emailAddress) "lead"
        then some "00Q_simulatedLeadId" else none) ∧
      f.data.Contact__c = (if jsIncludes (jsToLowerCase emailAddress) "lead"
        then none else some "003_simulatedContactId") ∧
      ((f.data.Lead__c ≠ none ∧ f.data.Contact__c = none) ∨
       (f.data.Lead__c = none ∧ f.data.Contact__c ≠ none)) := by
  cases h : jsIncludes (jsToLowerCase emailAddress) "lead" <;>
    simp [sendRecordFor, determineIfHubSpotContactIsSalesforceContactOrLead, h,
      writeSalesforceSendPayloadToFile]

/-- C10: the simulated Salesforce lookup always yields a record with
non-empty `type` and `recordIdentifier`, so the `continue`-on-missing
branch in `writeAllEmailSendsToFiles` never fires: the run writes exactly
one payload file per recipient entry of every analysis in the list. -/
theorem salesforce_lookup_never_skips :
    (∀ emailAddress, ∃ sr,
      determineIfHubSpotContactIsSalesforceContactOrLead emailAddress = some sr ∧
      sr.type ≠ "" ∧ sr.recordIdentifier ≠ "") ∧
    (∀ (cfg : Configuration) (analysisResults : List CampaignAnalysis),
      (writeAllEmailSendsToFiles cfg analysisResults).length =
        (analysisResults.map fun a => a.recipientEventsMap.length).sum) := by
  constructor
  · intro emailAddress
    cases h : jsIncludes (jsToLowerCase emailAddress) "lead" <;>
      simp [determineIfHubSpotContactIsSalesforceContactOrLead, h]
  · intro cfg rs
    unfold writeAllEmailSendsToFiles
    rw [List.length_flatten, List.map_map]
    congr 1
    apply List.map_congr_left
    intro a _
    show (a.recipientEventsMap.filterMap _).length = a.recipientEventsMap.length
    induction a.recipientEventsMap with
    | nil => rfl
    | cons p t ih =>
      have hsome : ∃ w, sendRecordFor cfg p.1 a.id p.2 = some w := by
        unfold sendRecordFor
        cases h : jsIncludes (jsToLowerCase p.1) "lead" <;>
          simp [determineIfHubSpotContactIsSalesforceContactOrLead, h]
      obtain ⟨w, hw⟩ := hsome
      simp [List.filterMap_cons, hw, ih]

theorem sendRecordFor_some_fields (cfg : Configuration) (recipient : String)
    (cid : Nat) (rd : RecipientData) (f : WrittenFile)
    (h : sendRecordFor cfg recipient cid rd = some f) :
    f.data.Email_Address__c = recipient ∧
    f.data.HubSpot_Email_Campaign__c = cid ∧
    f.data.HubSpot_Email_Send_ID__c = jsOrStr (jsOrOptStr rd.sendEventId "N/A") "N/A" ∧
    f.data.Total_Opened__c = jsOrInt rd.opens 0 ∧
    f.data.Total_Clicks__c = jsOrInt rd.clicks 0 ∧
    f.data.Total_Replies__c = jsOrInt rd.replies 0 ∧
    f.data.Unsubscribed__c = rd.unsubscribed := by
  unfold sendRecordFor determineIfHubSpotContactIsSalesforceContactOrLead at h
  by_cases hi : jsIncludes (jsToLowerCase recipient) "lead" = true
  · rw [if_pos hi] at h
    cases Option.some.inj h
    simp [writeSalesforceSendPayloadToFile]
  · rw [if_neg hi] at h
    cases Option.some.inj h
    simp [writeSalesforceSendPayloadToFile]

theorem mem_writeAllEmailSendsToFiles (cfg : Configuration)
    (rs : List CampaignAnalysis) (f : WrittenFile) :
    f ∈ writeAllEmailSendsToFiles cfg rs ↔
      ∃ a ∈ rs, ∃ entry ∈ a.recipientEventsMap,
        sendRecordFor cfg entry.1 a.id entry.2 = some f := by
  unfold writeAllEmailSendsToFiles
  rw [List.mem_flatten]
  constructor
  · rintro ⟨l, hl, hf⟩
    rcases List.mem_map.mp hl with ⟨a, ha, rfl⟩
    rcases List.mem_filterMap.mp hf with ⟨entry, he, hs⟩
    exact ⟨a, ha, entry, he, hs⟩
  · rintro ⟨a, ha, entry, he, hs⟩
    exact ⟨_, List.mem_map.mpr ⟨a, ha, rfl⟩, List.mem_filterMap.mpr ⟨entry, he, hs⟩⟩

theorem analyzeCampaign_some (o : Oracles) (allEvents : List EmailEvent)
    (cid : Nat) (a : CampaignAnalysis) (h : analyzeCampaign o allEvents cid = some a) :
    a.id = cid ∧ a.recipientEventsMap = processEmailEvents cid allEvents := by
  unfold analyzeCampaign at h
  cases hc : o.getEmailCampaignDetails cid with
  | none => rw [hc] at h; exact absurd h (by simp)
  | some cd =>
    rw [hc] at h
    simp only at h
    split at h
    · cases Option.some.inj h; exact ⟨rfl, rfl⟩
    · exact absurd h (by simp)

theorem mem_summary_iff (cfg : Configuration) (o : Oracles)
    (allEvents : List EmailEvent) (a : CampaignAnalysis) :
    a ∈ (compileEmailAnalytics cfg o allEvents).summary ↔
      ∃ cid ∈ dedupFirst (allEvents.map fun e => e.emailCampaignId),
        analyzeCampaign o allEvents cid = some a := by
  unfold compileEmailAnalytics
  simp only [List.mem_filterMap]

/-- The three counters are non-negative (invariant carried by every
record in the recipient map). -/
def countsNonneg (d : RecipientData) : Prop :=
  0 ≤ d.opens ∧ 0 ≤ d.clicks ∧ 0 ≤ d.replies

theorem applyEmailEvent_countsNonneg (e : EmailEvent) (d : RecipientData)
    (h : countsNonneg d) : countsNonneg (applyEmailEvent e d) := by
  obtain ⟨h1, h2, h3⟩ := h
  refine ⟨?_, ?_, ?_⟩
  · rw [applyEmailEvent_opens]; split_ifs <;> omega
  · rw [applyEmailEvent_clicks]; split_ifs <;> omega
  · rw [applyEmailEvent_replies]; split_ifs <;> omega

theorem recordEvent_countsNonneg (m : List (String × RecipientData)) (e : EmailEvent)
    (hm : ∀ p ∈ m, countsNonneg p.2) :
    ∀ p ∈ recordEvent m e, countsNonneg p.2 := by
  intro p hp
  simp only [recordEvent, updateKey] at hp
  rw [List.mem_map] at hp
  obtain ⟨q, hq, hpq⟩ := hp
  have hq2 : countsNonneg q.2 := by
    by_cases hl : (lookupKey e.recipient m).isSome = true
    · rw [if_pos hl] at hq; exact hm q hq
    · rw [if_neg hl] at hq
      rcases List.mem_append.mp hq with h1 | h2
      · exact hm q h1
      · have : q = (e.recipient, initialRecipientData) := List.mem_singleton.mp h2
        rw [this]
        exact ⟨le_refl 0, le_refl 0, le_refl 0⟩
  split at hpq
  · rw [← hpq]; exact applyEmailEvent_countsNonneg e q.2 hq2
  · rw [← hpq]; exact hq2

theorem processEmailEvents_countsNonneg (c : Nat) (allEvents : List EmailEvent) :
    ∀ p ∈ processEmailEvents c allEvents, countsNonneg p.2 := by
  unfold processEmailEvents
  generalize (allEvents.filter fun e => e.emailCampaignId == c) = l
  have main : ∀ (l : List EmailEvent) (m : List (String × RecipientData)),
      (∀ p ∈ m, countsNonneg p.2) → ∀ p ∈ l.foldl recordEvent m, countsNonneg p.2 := by
    intro l
    induction l with
    | nil => intro m hm; exact hm
    | cons e t ih =>
      intro m hm
      exact ih (recordEvent m e) (recordEvent_countsNonneg m e hm)
  exact main l [] (by intro p hp; exact absurd hp (List.not_mem_nil p))

/-- C9: every record in the recipient map carries non-negative `opens`,
`clicks`, `replies` and a boolean `unsubscribed`, and every emitted
Salesforce-send payload carries non-negative `Total_Opened__c`,
`Total_Clicks__c`, `Total_Replies__c` and a boolean `Unsubscribed__c`
(in the embedding presence of the flag is a typing fact: the source
always assigns `recipientData.unsubscribed`, which is initialised to
`false` and only ever set to `true`). -/
theorem engagement_counters_invariant (cfg : Configuration) (o : Oracles)
    (allEvents : List EmailEvent) (c : Nat) (r : String) :
    (∀ d, lookupKey r (processEmailEvents c allEvents) = some d →
      0 ≤ d.opens ∧ 0 ≤ d.clicks ∧ 0 ≤ d.replies ∧
      (d.unsubscribed = true ∨ d.unsubscribed = false)) ∧
    (∀ f ∈ (compileEmailAnalytics cfg o allEvents).sendFiles,
      0 ≤ f.data.Total_Opened__c ∧ 0 ≤ f.data.Total_Clicks__c ∧
      0 ≤ f.data.Total_Replies__c ∧
      (f.data.Unsubscribed__c = true ∨ f.data.Unsubscribed__c = false)) := by
  constructor
  · intro d h
    obtain ⟨h1, h2, h3, _⟩ := processedRecord_char allEvents c r d h
    refine ⟨?_, ?_, ?_, ?_⟩
    · rw [h1]; exact Int.natCast_nonneg _
    · rw [h2]; exact Int.natCast_nonneg _
    · rw [h3]; exact Int.natCast_nonneg _
    · cases d.unsubscribed
      · exact Or.inr rfl
      · exact Or.inl rfl
  · intro f hf
    have hmem : f ∈ writeAllEmailSendsToFiles cfg
        ((dedupFirst (allEvents.map fun e => e.emailCampaignId)).filterMap
          (analyzeCampaign o allEvents)) := hf
    rcases (mem_writeAllEmailSendsToFiles _ _ f).mp hmem with ⟨a, ha, entry, he, hs⟩
    rcases List.mem_filterMap.mp ha with ⟨cid, _, hcid⟩
    obtain ⟨hid2, hmap⟩ := analyzeCampaign_some o allEvents cid a hcid
    have hcn : countsNonneg entry.2 := by
      apply processEmailEvents_countsNonneg cid allEvents
      rw [← hmap]
      exact he
    obtain ⟨_, _, _, ho, hc2, hr2, hu⟩ :=
      sendRecordFor_some_fields cfg entry.1 a.id entry.2 f hs
    obtain ⟨n1, n2, n3⟩ := hcn
    refine ⟨?_, ?_, ?_, ?_⟩
    · rw [ho]; unfold jsOrInt; split_ifs <;> omega
    · rw [hc2]; unfold jsOrInt; split_ifs <;> omega
    · rw [hr2]; unfold jsOrInt; split_ifs <;> omega
    · rw [hu]
      cases entry.2.unsubscribed
      · exact Or.inr rfl
      · exact Or.inl rfl

/-- Concrete configuration and oracles used by several witnesses: every
lookup succeeds and the campaign-object is at the watermark instant. -/
def cfgW : Configuration :=
  { hubSpotAccessToken := some "tok", baseUniformResourceLocator := "https://api.hubapi.com",
    outputDirectory := "./hubspot_analytics", batchLimit := 100,
    salesforceSendsDirectory := "./salesforce_sends",
    salesforceIntegrationUserIdentifier := some "user1" }

def oraclesW : Oracles :=
  { getEmailCampaignDetails := fun _ => some { contentId := some "ct1" },
    getEmailContent := fun _ => some { campaign := some "h1" },
    getHubSpotCampaign := fun _ => some { updatedAt := watermarkMillis } }

theorem engagement_counters_invariant_witness :
    (0 ≤ (⟨2, 0, 0, false, some "e1"⟩ : RecipientData).opens ∧
     0 ≤ (⟨2, 0, 0, false, some "e1"⟩ : RecipientData).clicks ∧
     0 ≤ (⟨2, 0, 0, false, some "e1"⟩ : RecipientData).replies ∧
     ((⟨2, 0, 0, false, some "e1"⟩ : RecipientData).unsubscribed = true ∨
      (⟨2, 0, 0, false, some "e1"⟩ : RecipientData).unsubscribed = false)) :=
  (engagement_counters_invariant cfgW oraclesW evsC1 1 "b").1 _ (by decide)

/-- The content metadata a run resolves for campaign `cid`: absent when
the campaign details cannot be resolved (then no content is ever
fetched), when `contentId` is JS-falsy, or when the content lookup
itself yields nothing. -/
def contentDetailsOf (o : Oracles) (cid : Nat) : Option ContentDetails :=
  match o.getEmailCampaignDetails cid with
  | none => none
  | some d => fetchContentDetails o d

/-- The inclusion rule, stated as the spec words it: content metadata
present, carrying a (truthy) campaign-object reference, whose
campaign-object resolves and whose `updatedAt` is not strictly before
the watermark. -/
def campaignIncluded (o : Oracles) (cid : Nat) : Prop :=
  ∃ ct, contentDetailsOf o cid = some ct ∧
    ∃ hid, ct.campaign = some hid ∧ hid ≠ "" ∧
      ∃ hc, o.getHubSpotCampaign hid = some hc ∧ watermarkMillis ≤ hc.updatedAt

theorem analyzeCampaign_isSome_iff (o : Oracles) (allEvents : List EmailEvent)
    (cid : Nat) :
    (∃ a, analyzeCampaign o allEvents cid = some a) ↔ campaignIncluded o cid := by
  unfold analyzeCampaign campaignIncluded contentDetailsOf
  cases hc : o.getEmailCampaignDetails cid with
  | none => simp
  | some cd =>
    cases hct : fetchContentDetails o cd with
    | none => simp [hct]
    | some ct =>
      cases hcamp : ct.campaign with
      | none => simp [hct, hcamp]
      | some hid =>
        by_cases hh : hid = ""
        · simp [hct, hcamp, hh]
        · cases hhc : o.getHubSpotCampaign hid with
          | none => simp [hct, hcamp, hh, hhc]
          | some hcx =>
            by_cases hup : watermarkMillis ≤ hcx.updatedAt
            · simp [hct, hcamp, hh, hhc, hup]
            · simp [hct, hcamp, hh, hhc, hup]

theorem mem_dedupFirstAux :
    ∀ (l : List Nat) (seen : List Nat) (x : Nat),
      x ∈ dedupFirstAux seen l ↔ (x ∈ l ∧ x ∉ seen) := by
  intro l
  induction l with
  | nil => intro seen x; simp [dedupFirstAux]
  | cons y t ih =>
    intro seen x
    unfold dedupFirstAux
    by_cases hy : y ∈ seen
    · rw [if_pos hy, ih]
      constructor
      · rintro ⟨hx, hn⟩; exact ⟨List.mem_cons_of_mem _ hx, hn⟩
      · rintro ⟨hx, hn⟩
        rcases List.mem_cons.mp hx with rfl | hx2
        · exact absurd hy hn
        · exact ⟨hx2, hn⟩
    · rw [if_neg hy]
      constructor
      · intro hx
        rcases List.mem_cons.mp hx with rfl | hx2
        · exact ⟨List.mem_cons_self _ _, hy⟩
        · rcases (ih (y :: seen) x).mp hx2 with ⟨hxt, hns⟩
          exact ⟨List.mem_cons_of_mem _ hxt,
            fun hh => hns (List.mem_cons_of_mem _ hh)⟩
      · rintro ⟨hx, hn⟩
        rcases List.mem_cons.mp hx with rfl | hx2
        · exact List.mem_cons_self _ _
        · by_cases hxy : x = y
          · subst hxy; exact List.mem_cons_self _ _
          · refine List.mem_cons_of_mem _ ((ih (y :: seen) x).mpr ⟨hx2, ?_⟩)
            intro hh
            rcases List.mem_cons.mp hh with h1 | h2
            · exact hxy h1
            · exact hn h2

theorem mem_dedupFirst (l : List Nat) (x : Nat) : x ∈ dedupFirst l ↔ x ∈ l := by
  unfold dedupFirst
  rw [mem_dedupFirstAux]
  simp

/-- C4: a campaign observed in the event stream appears in the summary,
and has a per-campaign file, exactly when its content metadata resolves,
the content carries a campaign-object reference, the campaign-object
resolves, and its `updatedAt` is not strictly before the watermark
`2024-01-01T01:01:01.001Z`; and every emitted send-record file belongs
to an included campaign.  (A campaign whose details lookup fails has no
content metadata, covered by the first condition.) -/
theorem campaign_inclusion_policy (cfg : Configuration) (o : Oracles)
    (allEvents : List EmailEvent) (cid : Nat)
    (hev : cid ∈ allEvents.map fun e => e.emailCampaignId) :
    ((∃ a ∈ (compileEmailAnalytics cfg o allEvents).summary, a.id = cid) ↔
      campaignIncluded o cid) ∧
    ((∃ pf ∈ (compileEmailAnalytics cfg o allEvents).perCampaignFiles, pf.2.id = cid) ↔
      campaignIncluded o cid) ∧
    ((∃ f ∈ (compileEmailAnalytics cfg o allEvents).sendFiles,
        f.data.HubSpot_Email_Campaign__c = cid) → campaignIncluded o cid) := by
  have hsum : (∃ a ∈ (compileEmailAnalytics cfg o allEvents).summary, a.id = cid) ↔
      campaignIncluded o cid := by
    constructor
    · rintro ⟨a, ha, rfl⟩
      rcases (mem_summary_iff cfg o allEvents a).mp ha with ⟨cid', hc', hana⟩
      obtain ⟨hid, _⟩ := analyzeCampaign_some o allEvents cid' a hana
      rw [hid]
      exact (analyzeCampaign_isSome_iff o allEvents cid').mp ⟨a, hana⟩
    · intro hinc
      obtain ⟨a, hana⟩ := (analyzeCampaign_isSome_iff o allEvents cid).mpr hinc
      obtain ⟨hid, _⟩ := analyzeCampaign_some o allEvents cid a hana
      refine ⟨a, (mem_summary_iff cfg o allEvents a).mpr ⟨cid, ?_, hana⟩, hid⟩
      rw [mem_dedupFirst]
      exact hev
  refine ⟨hsum, ?_, ?_⟩
  · rw [← hsum]
    constructor
    · rintro ⟨pf, hpf, hpid⟩
      have hpf2 : pf ∈ ((dedupFirst (allEvents.map fun e => e.emailCampaignId)).filterMap
          (analyzeCampaign o allEvents)).map
            (fun a => (emailFileName cfg a.id, a)) := hpf
      rcases List.mem_map.mp hpf2 with ⟨a, ha, rfl⟩
      exact ⟨a, ha, hpid⟩
    · rintro ⟨a, ha, hid⟩
      refine ⟨(emailFileName cfg a.id, a), ?_, hid⟩
      exact List.mem_map.mpr ⟨a, ha, rfl⟩
  · rintro ⟨f, hf, hfc⟩
    have hf2 : f ∈ writeAllEmailSendsToFiles cfg
        ((dedupFirst (allEvents.map fun e => e.emailCampaignId)).filterMap
          (analyzeCampaign o allEvents)) := hf
    rcases (mem_writeAllEmailSendsToFiles _ _ f).mp hf2 with ⟨a, ha, entry, he, hs⟩
    obtain ⟨_, hcamp, _⟩ := sendRecordFor_some_fields cfg entry.1 a.id entry.2 f hs
    rw [← hsum]
    exact ⟨a, ha, by rw [← hcamp, hfc]⟩

theorem campaign_inclusion_policy_witness :
    (1 ∈ evsC1.map fun e => e.emailCampaignId) ∧
    (((∃ a ∈ (compileEmailAnalytics cfgW oraclesW evsC1).summary, a.id = 1) ↔
        campaignIncluded oraclesW 1) ∧
     ((∃ pf ∈ (compileEmailAnalytics cfgW oraclesW evsC1).perCampaignFiles,
         pf.2.id = 1) ↔ campaignIncluded oraclesW 1) ∧
     ((∃ f ∈ (compileEmailAnalytics cfgW oraclesW evsC1).sendFiles,
         f.data.HubSpot_Email_Campaign__c = 1) → campaignIncluded oraclesW 1)) :=
  ⟨by decide, campaign_inclusion_policy cfgW oraclesW evsC1 1 (by decide)⟩

theorem lookupKey_some_mem (k : String) :
    ∀ (m : List (String × RecipientData)) (v : RecipientData),
      lookupKey k m = some v → (k, v) ∈ m := by
  intro m
  induction m with
  | nil => intro v h; simp [lookupKey] at h
  | cons p t ih =>
    intro v h
    obtain ⟨k1, w⟩ := p
    by_cases h1 : k1 = k
    · subst h1
      simp only [lookupKey, if_pos rfl] at h
      cases Option.some.inj h
      exact List.mem_cons_self _ _
    · simp only [lookupKey, if_neg h1] at h
      exact List.mem_cons_of_mem _ (ih v h)

theorem mem_recordEvent_key (m : List (String × RecipientData)) (e : EmailEvent) :
    ∀ p ∈ recordEvent m e, (∃ q ∈ m, q.1 = p.1) ∨ p.1 = e.recipient := by
  intro p hp
  simp only [recordEvent, updateKey] at hp
  rw [List.mem_map] at hp
  obtain ⟨q, hq, hpq⟩ := hp
  have hq1 : (∃ q2 ∈ m, q2.1 = q.1) ∨ q.1 = e.recipient := by
    by_cases hl : (lookupKey e.recipient m).isSome = true
    · rw [if_pos hl] at hq; exact Or.inl ⟨q, hq, rfl⟩
    · rw [if_neg hl] at hq
      rcases List.mem_append.mp hq with h1 | h2
      · exact Or.inl ⟨q, h1, rfl⟩
      · right; rw [List.mem_singleton.mp h2]
  have hpq1 : p.1 = q.1 := by
    split at hpq
    · rw [← hpq]
    · rw [← hpq]
  rw [hpq1]
  exact hq1

theorem foldl_recordEvent_key :
    ∀ (l : List EmailEvent) (m : List (String × RecipientData)),
      ∀ p ∈ l.foldl recordEvent m,
        (∃ q ∈ m, q.1 = p.1) ∨ ∃ e ∈ l, e.recipient = p.1 := by
  intro l
  induction l with
  | nil => intro m p hp; exact Or.inl ⟨p, hp, rfl⟩
  | cons e t ih =>
    intro m p hp
    rcases ih (recordEvent m e) p hp with ⟨q, hq, hq1⟩ | ⟨e2, he2, hr⟩
    · rcases mem_recordEvent_key m e q hq with ⟨q2, hq2, hq21⟩ | hqe
      · exact Or.inl ⟨q2, hq2, hq21.trans hq1⟩
      · exact Or.inr ⟨e, List.mem_cons_self _ _, hqe.symm.trans hq1⟩
    · exact Or.inr ⟨e2, List.mem_cons_of_mem _ he2, hr⟩

theorem mem_processEmailEvents_key (c : Nat) (allEvents : List EmailEvent) :
    ∀ p ∈ processEmailEvents c allEvents,
      ∃ e ∈ allEvents, e.emailCampaignId = c ∧ e.recipient = p.1 := by
  intro p hp
  unfold processEmailEvents at hp
  rcases foldl_recordEvent_key _ [] p hp with ⟨q, hq, _⟩ | ⟨e, he, hr⟩
  · exact absurd hq (List.not_mem_nil q)
  · rcases List.mem_filter.mp he with ⟨hmem, hbeq⟩
    exact ⟨e, hmem, by simpa using hbeq, hr⟩

/-- C3 (amended): for every campaign and recipient, a Salesforce-send
payload file with that campaign id and address is emitted iff the
campaign is included in the summary and the recipient has at least one
event of any type for that campaign.  (The source iterates all of
`recipientEventsMap`, so a recipient whose only event is an engagement
event still gets a file, with send id `"N/A"` — see the counterexample
to the claim as stated.) -/
theorem send_record_file_iff_recipient_observed (cfg : Configuration) (o : Oracles)
    (allEvents : List EmailEvent) (c : Nat) (r : String) :
    (∃ f ∈ (compileEmailAnalytics cfg o allEvents).sendFiles,
        f.data.HubSpot_Email_Campaign__c = c ∧ f.data.Email_Address__c = r) ↔
      ((∃ a ∈ (compileEmailAnalytics cfg o allEvents).summary, a.id = c) ∧
       ∃ e ∈ allEvents, e.emailCampaignId = c ∧ e.recipient = r) := by
  constructor
  · rintro ⟨f, hf, hfc, hfr⟩
    have hf2 : f ∈ writeAllEmailSendsToFiles cfg
        ((dedupFirst (allEvents.map fun e => e.emailCampaignId)).filterMap
          (analyzeCampaign o allEvents)) := hf
    rcases (mem_writeAllEmailSendsToFiles _ _ f).mp hf2 with ⟨a, ha, entry, he, hs⟩
    obtain ⟨hrec, hcamp, _⟩ := sendRecordFor_some_fields cfg entry.1 a.id entry.2 f hs
    have hac : a.id = c := hcamp.symm.trans hfc
    constructor
    · exact ⟨a, ha, hac⟩
    · rcases (mem_summary_iff cfg o allEvents a).mp ha with ⟨cid', _, hana⟩
      obtain ⟨hid, hmap⟩ := analyzeCampaign_some o allEvents cid' a hana
      have he2 : entry ∈ processEmailEvents cid' allEvents := by rw [← hmap]; exact he
      rcases mem_processEmailEvents_key cid' allEvents entry he2 with ⟨e, hme, hec, her⟩
      refine ⟨e, hme, ?_, ?_⟩
      · rw [hec, ← hid, hac]
      · rw [her, ← hrec, hfr]
  · rintro ⟨⟨a, ha, hid⟩, e, hme, hec, her⟩
    rcases (mem_summary_iff cfg o allEvents a).mp ha with ⟨cid', _, hana⟩
    obtain ⟨hid2, hmap⟩ := analyzeCampaign_some o allEvents cid' a hana
    have hcc : cid' = c := hid2.symm.trans hid
    have hne : eventsFor c r allEvents ≠ [] :=
      (eventsFor_ne_nil_iff c r allEvents).mpr ⟨e, hme, hec, her⟩
    have hsome2 : (collapseRecipient (eventsFor c r allEvents)).isSome = true :=
      (collapseRecipient_isSome _).mpr hne
    have hlook : ∃ d, lookupKey r (processEmailEvents c allEvents) = some d := by
      rw [lookupKey_processEmailEvents]
      exact Option.isSome_iff_exists.mp hsome2
    obtain ⟨d, hd⟩ := hlook
    have hmem : (r, d) ∈ processEmailEvents c allEvents := lookupKey_some_mem r _ d hd
    have hmem2 : (r, d) ∈ a.recipientEventsMap := by rw [hmap, hcc]; exact hmem
    have hsome3 : ∃ f, sendRecordFor cfg r a.id d = some f := by
      unfold sendRecordFor
      cases hj : jsIncludes (jsToLowerCase r) "lead" <;>
        simp [determineIfHubSpotContactIsSalesforceContactOrLead, hj]
    obtain ⟨f, hf⟩ := hsome3
    obtain ⟨hrec, hcamp, _⟩ := sendRecordFor_some_fields cfg r a.id d f hf
    refine ⟨f, ?_, by rw [hcamp, hid], hrec⟩
    have ha2 : a ∈ (dedupFirst (allEvents.map fun e => e.emailCampaignId)).filterMap
        (analyzeCampaign o allEvents) := ha
    exact (mem_writeAllEmailSendsToFiles cfg
      ((dedupFirst (allEvents.map fun e => e.emailCampaignId)).filterMap
        (analyzeCampaign o allEvents)) f).mpr ⟨a, ha2, (r, d), hmem2, hf⟩

/-- A recipient with a single `OPEN` event and no send-indicating event. -/
def evsC3X : List EmailEvent := [⟨"e1", "OPEN", "bob@x.co", 1⟩]

/-- C3 counterexample: on `evsC3X` (campaign included, the only event an
`OPEN`) the run still emits exactly one Salesforce-send payload file for
the recipient, with send id `"N/A"`, although no send-indicating event
exists — refuting the claim that such a recipient yields no file. -/
theorem send_record_file_without_send_event :
    ((compileEmailAnalytics cfgW oraclesW evsC3X).sendFiles.map
       (fun f => (f.data.Email_Address__c, f.data.HubSpot_Email_Campaign__c,
                  f.data.HubSpot_Email_Send_ID__c))) =
      [("bob@x.co", 1, "N/A")] ∧
    (∀ e ∈ evsC3X, sendTypeB e = false) :=
  ⟨by decide, by decide⟩

/-- One page of the paginated events endpoint:
`{events, hasMore, offset}`.  (The offset is threaded back verbatim; the
response sequence below abstracts the server's cursor behaviour.) -/
structure PageResponse where
  events : List EmailEvent
  hasMore : Bool
  offset : Option Nat
deriving DecidableEq

/-- Module-level constant `testMode = false`. -/
def testMode : Bool := false

/-- Module-level constant `testEventLimit = 1000`. -/
def testEventLimit : Nat := 1000

/-- The `while (hasMoreEvents)` loop of `getAllEvents`, driven by the
sequence of responses the server yields to successive page requests:
`none` is a failed request (the `catch` sets `hasMoreEvents = false`, so
the accumulated events are returned); a successful page is appended when
non-empty, the test-mode cap `break` fires only inside the non-empty
branch, and an exhausted response list ends the run. -/
def getAllEventsGo (tm : Bool) (limit : Nat) (acc : List EmailEvent) :
    List (Option PageResponse) → List EmailEvent
  | [] => acc
  | none :: _ => acc
  | some page :: rest =>
    let acc2 := if 0 < page.events.length then acc ++ page.events else acc
    if 0 < page.events.length ∧ tm = true ∧ limit ≤ acc2.length then acc2
    else if page.hasMore then getAllEventsGo tm limit acc2 rest
    else acc2

/-- `getAllEvents()` as a function of the server's response sequence. -/
def getAllEvents (tm : Bool) (limit : Nat)
    (responses : List (Option PageResponse)) : List EmailEvent :=
  getAllEventsGo tm limit [] responses

/-- All events carried by a list of successful pages, in order. -/
def pagesEvents (pre : List PageResponse) : List EmailEvent :=
  (pre.map fun p => p.events).flatten

theorem getAllEventsGo_fail (limit : Nat) (rest : List (Option PageResponse)) :
    ∀ (pre : List PageResponse) (acc : List EmailEvent),
      (∀ q ∈ pre, q.hasMore = true) →
      getAllEventsGo false limit acc (pre.map some ++ none :: rest) =
        acc ++ pagesEvents pre := by
  intro pre
  induction pre with
  | nil => intro acc _; simp [pagesEvents, getAllEventsGo]
  | cons q t ih =>
    intro acc hmore
    have hq : q.hasMore = true := hmore q (List.mem_cons_self _ _)
    simp only [List.map_cons, List.cons_append, getAllEventsGo]
    have hnb : ¬ (0 < q.events.length ∧ false = true ∧
        limit ≤ (if 0 < q.events.length then acc ++ q.events else acc).length) := by
      rintro ⟨_, hff, _⟩; exact absurd hff (by simp)
    rw [if_neg hnb, if_pos hq]
    by_cases hql : 0 < q.events.length
    · rw [if_pos hql]
      simp only [List.append_eq]
      rw [ih (acc ++ q.events) (fun x hx => hmore x (List.mem_cons_of_mem _ hx))]
      simp [pagesEvents]
    · have hnil : q.events = [] := by
        cases hqe : q.events with
        | nil => rfl
        | cons x xs => rw [hqe] at hql; simp at hql
      rw [if_neg hql]
      simp only [List.append_eq]
      rw [ih acc (fun x hx => hmore x (List.mem_cons_of_mem _ hx))]
      simp [pagesEvents, hnil]

/-- C5: when some page request fails, `getAllEvents` does not raise: the
`catch` halts pagination at the first failing page and the function
returns exactly the events accumulated from the pages fetched before the
failure, whatever responses would have followed.  (The embedding is a
total function, so "does not raise" is the fact that a value — the
accumulated prefix — is returned.) -/
theorem getAllEvents_fail_soft (limit : Nat) (pre : List PageResponse)
    (rest : List (Option PageResponse))
    (hmore : ∀ q ∈ pre, q.hasMore = true) :
    getAllEvents testMode limit (pre.map some ++ none :: rest) = pagesEvents pre := by
  unfold getAllEvents testMode
  rw [getAllEventsGo_fail limit rest pre [] hmore]
  simp

/-- Two successful pages that report more data, before the failure. -/
def pagesC5 : List PageResponse :=
  [{ events := [⟨"e1", "SENT", "b", 1⟩], hasMore := true, offset := some 100 },
   { events := [⟨"e2", "OPEN", "b", 1⟩], hasMore := true, offset := some 200 }]

theorem getAllEvents_fail_soft_witness :
    (∀ q ∈ pagesC5, q.hasMore = true) ∧
    getAllEvents testMode 1000 (pagesC5.map some ++ none ::
        [some { events := [⟨"e3", "OPEN", "b", 1⟩], hasMore := false, offset := none }]) =
      pagesEvents pagesC5 :=
  ⟨by decide, getAllEvents_fail_soft 1000 pagesC5 _ (by decide)⟩

theorem getAllEventsGo_cap (limit : Nat) (p : PageResponse)
    (rest : List (Option PageResponse)) :
    ∀ (pre : List PageResponse) (acc : List EmailEvent),
      (∀ q ∈ pre, q.hasMore = true) →
      (∀ k, k ≤ pre.length → acc.length + (pagesEvents (pre.take k)).length < limit) →
      limit ≤ acc.length + (pagesEvents pre).length + p.events.length →
      getAllEventsGo true limit acc (pre.map some ++ some p :: rest) =
        acc ++ pagesEvents pre ++ p.events := by
  intro pre
  induction pre with
  | nil =>
    intro acc _ hlt hge
    have hacc : acc.length < limit := by
      have h0 := hlt 0 (Nat.le_refl 0)
      simpa [pagesEvents] using h0
    have hplen : 0 < p.events.length := by
      simp only [pagesEvents, List.map_nil, List.flatten_nil, List.length_nil,
        Nat.add_zero] at hge
      omega
    have hbreak : limit ≤
        (if 0 < p.events.length then acc ++ p.events else acc).length := by
      rw [if_pos hplen]
      simp only [pagesEvents, List.map_nil, List.flatten_nil, List.length_nil,
        Nat.add_zero] at hge
      simp only [List.length_append]
      omega
    simp only [List.map_nil, List.nil_append, getAllEventsGo]
    rw [if_pos ⟨hplen, trivial, hbreak⟩, if_pos hplen]
    simp [pagesEvents]
  | cons q t ih =>
    intro acc hmore hlt hge
    have hq : q.hasMore = true := hmore q (List.mem_cons_self _ _)
    have hk1 : acc.length + q.events.length < limit := by
      have := hlt 1 (by simp)
      simpa [pagesEvents] using this
    simp only [List.map_cons, List.cons_append, getAllEventsGo]
    have hlt2 : ∀ k, k ≤ t.length →
        (acc ++ q.events).length + (pagesEvents (t.take k)).length < limit := by
      intro k hk
      have := hlt (k + 1) (by simpa using Nat.succ_le_succ hk)
      simp only [List.take_succ_cons, pagesEvents, List.map_cons, List.flatten_cons,
        List.length_append] at this ⊢
      omega
    have hge2 : limit ≤ (acc ++ q.events).length + (pagesEvents t).length +
        p.events.length := by
      simp only [pagesEvents, List.map_cons, List.flatten_cons, List.length_append] at hge ⊢
      omega
    by_cases hql : 0 < q.events.length
    · have hnb : ¬ (0 < q.events.length ∧ True ∧
          limit ≤ (if 0 < q.events.length then acc ++ q.events else acc).length) := by
        rintro ⟨_, _, hle⟩
        rw [if_pos hql] at hle
        simp [List.length_append] at hle
        omega
      rw [if_neg hnb, if_pos hq, if_pos hql]
      simp only [List.append_eq]
      rw [ih (acc ++ q.events) (fun x hx => hmore x (List.mem_cons_of_mem _ hx)) hlt2 hge2]
      simp [pagesEvents]
    · have hnil : q.events = [] := by
        cases hqe : q.events with
        | nil => rfl
        | cons x xs => rw [hqe] at hql; simp at hql
      have hnb : ¬ (0 < q.events.length ∧ True ∧
          limit ≤ (if 0 < q.events.length then acc ++ q.events else acc).length) := by
        rintro ⟨hc, _, _⟩
        exact hql hc
      rw [if_neg hnb, if_pos hq, if_neg hql]
      simp only [List.append_eq]
      have hlt3 : ∀ k, k ≤ t.length →
          acc.length + (pagesEvents (t.take k)).length < limit := by
        intro k hk
        have := hlt2 k hk
        simp only [List.length_append, hnil, List.length_nil, Nat.add_zero] at this
        exact this
      have hge3 : limit ≤ acc.length + (pagesEvents t).length + p.events.length := by
        have := hge2
        simp only [List.length_append, hnil, List.length_nil, Nat.add_zero] at this
        exact this
      rw [ih acc (fun x hx => hmore x (List.mem_cons_of_mem _ hx)) hlt3 hge3]
      simp [pagesEvents, hnil]

/-- C6: with test mode enabled and cap `limit`, `getAllEvents` stops as
soon as the accumulated count reaches or exceeds the cap after appending
a page, even though the page reports more data and further responses
exist; the cap-reaching page is kept whole, so the result can exceed the
cap and is never truncated to it. -/
theorem getAllEvents_test_mode_cap (limit : Nat) (pre : List PageResponse)
    (p : PageResponse) (rest : List (Option PageResponse))
    (hmore : ∀ q ∈ pre, q.hasMore = true)
    (hlt : ∀ k, k ≤ pre.length → (pagesEvents (pre.take k)).length < limit)
    (hge : limit ≤ (pagesEvents pre).length + p.events.length) :
    getAllEvents true limit (pre.map some ++ some p :: rest) =
      pagesEvents pre ++ p.events ∧
    limit ≤ (pagesEvents pre ++ p.events).length := by
  constructor
  · unfold getAllEvents
    rw [getAllEventsGo_cap limit p rest pre []
      hmore (by simpa using hlt) (by simpa using hge)]
    simp
  · simp only [List.length_append]
    omega

/-- One full page before the cap-reaching page. -/
def pagesC6 : List PageResponse :=
  [{ events := [⟨"e1", "SENT", "b", 1⟩], hasMore := true, offset := some 100 }]

/-- The page whose arrival pushes the total past the cap of 2, while
still reporting more data. -/
def pageC6 : PageResponse :=
  { events := [⟨"e2", "OPEN", "b", 1⟩, ⟨"e3", "OPEN", "b", 1⟩],
    hasMore := true, offset := some 200 }

theorem getAllEvents_test_mode_cap_witness :
    (∀ q ∈ pagesC6, q.hasMore = true) ∧
    (getAllEvents true 2 (pagesC6.map some ++ some pageC6 ::
        [some { events := [⟨"e4", "OPEN", "b", 1⟩], hasMore := true, offset := none }]) =
       pagesEvents pagesC6 ++ pageC6.events ∧
     2 ≤ (pagesEvents pagesC6 ++ pageC6.events).length) :=
  ⟨by decide,
   getAllEvents_test_mode_cap 2 pagesC6 pageC6 _ (by decide)
     (by
        intro k hk
        have hk2 : k ≤ 1 := by simpa [pagesC6] using hk
        interval_cases k <;> decide)
     (by decide)⟩

/-- The parsed `variables.json` content: both keys optional. -/
structure Variables where
  hubspotAccessToken : Option String
  salesforceIntegrationUserId : Option String

/-- The module-level `configuration` object built from `variables`:
no validation of the token takes place. -/
def configurationOf (v : Variables) : Configuration :=
  { hubSpotAccessToken := v.hubspotAccessToken,
    baseUniformResourceLocator := "https://api.hubapi.com",
    outputDirectory := "./hubspot_analytics",
    batchLimit := 100,
    salesforceSendsDirectory := "./salesforce_sends",
    salesforceIntegrationUserIdentifier := v.salesforceIntegrationUserId }

/-- Interpolation of a nullable string into a template literal:
`undefined` prints as the string "undefined". -/
def jsTemplateOptStr : Option String → String
  | none => "undefined"
  | some s => s

/-- The axios instance: base URL plus the Authorization header
`Bearer ${configuration.hubSpotAccessToken}`. -/
structure AxiosInstance where
  baseURL : String
  authorizationHeader : String
deriving DecidableEq

/-- `createAxiosInstance()`. -/
def createAxiosInstance (c : Configuration) : AxiosInstance :=
  { baseURL := c.baseUniformResourceLocator,
    authorizationHeader := "Bearer " ++ jsTemplateOptStr c.hubSpotAccessToken }

/-- One outbound HTTP request, as observable data. -/
structure HttpRequest where
  url : String
  authorization : String
deriving DecidableEq

/-- The GET issued by each iteration of the events loop. -/
def eventsRequest (inst : AxiosInstance) : HttpRequest :=
  { url := inst.baseURL ++ "/email/public/v1/events",
    authorization := inst.authorizationHeader }

/-- The requests `getAllEvents` issues against a given response
sequence (one per loop iteration, mirroring `getAllEventsGo`). -/
def getAllEventsRequests (inst : AxiosInstance) (tm : Bool) (limit : Nat) :
    Nat → List (Option PageResponse) → List HttpRequest
  | _, [] => []
  | _, none :: _ => [eventsRequest inst]
  | accLen, some page :: rest =>
    let len2 := if 0 < page.events.length then accLen + page.events.length else accLen
    eventsRequest inst ::
      (if 0 < page.events.length ∧ tm = true ∧ limit ≤ len2 then []
       else if page.hasMore then getAllEventsRequests inst tm limit len2 rest
       else [])

/-- C8 (code-bug exhibit): when `variables.json` carries no
`hubspotAccessToken`, the source performs no validation — the axios
instance is built with the header `Bearer undefined`, the first events
page request is issued over the network carrying that header, and after
the (inevitably failing) request the run continues with an empty event
collection instead of aborting with a configuration error before any
network call. -/
theorem missing_token_still_issues_network_call :
    createAxiosInstance (configurationOf
        { hubspotAccessToken := none, salesforceIntegrationUserId := none }) =
      { baseURL := "https://api.hubapi.com",
        authorizationHeader := "Bearer undefined" } ∧
    getAllEventsRequests (createAxiosInstance (configurationOf
        { hubspotAccessToken := none, salesforceIntegrationUserId := none }))
        testMode testEventLimit 0 [none] =
      [{ url := "https://api.hubapi.com/email/public/v1/events",
         authorization := "Bearer undefined" }] ∧
    getAllEvents testMode testEventLimit [none] = [] :=
  ⟨by decide, by decide, by decide⟩
